import Mathlib

/-!
Shallow embedding of the gpio-fan-rpm measurement core (src/src/*.c).

Doubles are modelled as rationals (ℚ): all arithmetic the claims exercise is
exact.  The interrupted sentinel -1.0 is modelled as (-1 : ℚ).  Stateful C
loops over the volatile stop flag / poll results are modelled as recursive
functions over a finite trace of per-iteration observations; the function
returns `none` when the trace is exhausted before the loop exits.
-/

namespace GpioFanRpm

/-! ### stats.c -/

/-- Embedding of `rpm_stats_t` (stats.h): per-channel min/max/sum/count. -/
structure rpm_stats_t where
  min : ℚ
  max : ℚ
  sum : ℚ
  count : ℕ
deriving Repr, DecidableEq

/-- Embedding of `stats_init` (stats.c:11-17): all fields zeroed. -/
def stats_init : rpm_stats_t := ⟨0, 0, 0, 0⟩

/-- Embedding of `stats_update` (stats.c:19-31). -/
def stats_update (s : rpm_stats_t) (rpm : ℚ) : rpm_stats_t :=
  let s' :=
    if s.count = 0 then
      { s with min := rpm, max := rpm }
    else
      { s with
        min := if rpm < s.min then rpm else s.min,
        max := if rpm > s.max then rpm else s.max }
  { s' with sum := s'.sum + rpm, count := s'.count + 1 }

/-- Embedding of `stats_avg` (stats.c:33-36). -/
def stats_avg (s : rpm_stats_t) : ℚ :=
  if s.count = 0 then 0 else s.sum / (s.count : ℚ)

/-! ### gpio.c : timed_event_loop -/

/-- Result codes of `timed_event_loop` (gpio.c:32-36). -/
inductive timed_loop_result_t where
  | completed
  | interrupted
  | error
deriving Repr, DecidableEq

/-- One iteration's observations in the timerfd-based loop
(gpio.c:102-126): the stop flag at the loop head, whether poll failed
(and with EINTR), whether the timer fd was readable, whether the gpio
event fd was readable, and whether `gpio_read_event` succeeded. -/
structure LoopObs where
  stop : Bool
  pollErr : Bool
  eintr : Bool
  timerExpired : Bool
  gpioReady : Bool
  readOk : Bool
deriving Repr, DecidableEq

/-- Embedding of the timerfd-based while-loop of `timed_event_loop`
(gpio.c:101-129).  `result` starts as INTERRUPTED and only the timer-expiry
break sets COMPLETED; poll-error and read-error breaks, and exit through the
`while (!stop)` condition, leave it INTERRUPTED. -/
def timerfdLoop : List LoopObs → ℕ → Option (timed_loop_result_t × ℕ)
  | [], _ => none
  | o :: rest, count =>
    if o.stop then some (.interrupted, count)
    else if o.pollErr then
      if o.eintr then timerfdLoop rest count
      else some (.interrupted, count)
    else if o.timerExpired then some (.completed, count)
    else if o.gpioReady then
      if o.readOk then timerfdLoop rest (count + 1)
      else some (.interrupted, count)
    else timerfdLoop rest count

/-- One iteration's observations in the fallback (no timerfd) loop
(gpio.c:66-81): stop flag at the loop head, whether the wall clock reached
the deadline, whether `gpio_wait_event` reported an event, whether the read
succeeded, and the fresh value of the stop flag re-read after a break. -/
structure FbObs where
  stop : Bool
  deadlineReached : Bool
  eventAvail : Bool
  readOk : Bool
  stopAfter : Bool
deriving Repr, DecidableEq

/-- Embedding of the fallback polling loop of `timed_event_loop`
(gpio.c:62-81).  A read error breaks out and the function returns
`stop ? INTERRUPTED : COMPLETED` on a fresh read of the stop flag. -/
def fallbackLoop : List FbObs → ℕ → Option (timed_loop_result_t × ℕ)
  | [], _ => none
  | o :: rest, count =>
    if o.stop then some (.interrupted, count)
    else if o.deadlineReached then some (.completed, count)
    else if o.eventAvail then
      if o.readOk then fallbackLoop rest (count + 1)
      else some (if o.stopAfter then .interrupted else .completed, count)
    else fallbackLoop rest count

/-- How one call of `timed_event_loop` unfolds: either the timerfd was
created and armed (gpio.c:94-129), arming failed (gpio.c:87-92, returns
TIMED_LOOP_ERROR), or timerfd creation failed and the fallback loop ran
(gpio.c:59-82). -/
inductive PhaseTrace where
  | timer (obs : List LoopObs)
  | timerArmFail
  | fallback (obs : List FbObs)
deriving Repr, DecidableEq

/-- Embedding of `timed_event_loop` (gpio.c:48-130): dispatches to the
timerfd loop, the arm-failure early return, or the fallback loop.  The
count always starts at 0 for the call (the caller's counter). -/
def timed_event_loop : PhaseTrace → Option (timed_loop_result_t × ℕ)
  | .timer obs => timerfdLoop obs 0
  | .timerArmFail => some (.error, 0)
  | .fallback obs => fallbackLoop obs 0

/-! ### gpio.c : gpio_measure_rpm -/

/-- The RPM computation at gpio.c:297-302: 0.0 when elapsed ≤ 0, else
`(count / pulses_per_rev) / elapsed * 60`. -/
def rpm_from (count : ℕ) (pulses_per_rev : ℤ) (elapsed : ℚ) : ℚ :=
  if elapsed ≤ 0 then 0
  else ((count : ℚ) / (pulses_per_rev : ℚ)) / elapsed * 60

/-- The measurement phase of `gpio_measure_rpm` (gpio.c:276-313): run the
timed loop counting edges; INTERRUPTED or ERROR yields the sentinel -1.0,
otherwise the RPM is computed from the counted edges and the measured
elapsed wall time. -/
def measure_phase (pulses_per_rev : ℤ) (mtrace : PhaseTrace) (elapsed : ℚ) :
    Option ℚ :=
  match timed_event_loop mtrace with
  | none => none
  | some (.interrupted, _) => some (-1)
  | some (.error, _) => some (-1)
  | some (.completed, count) => some (rpm_from count pulses_per_rev elapsed)

/-- Embedding of `gpio_measure_rpm` (gpio.c:260-313).  When warmup > 0 the
warmup loop runs first with a NULL count pointer (its edge count is
discarded); INTERRUPTED or ERROR there returns -1.0 before the measurement
phase ever runs.  `elapsed` is the wall time measured around the
measurement phase. -/
def gpio_measure_rpm (pulses_per_rev : ℤ) (warmup : ℤ)
    (wtrace mtrace : PhaseTrace) (elapsed : ℚ) : Option ℚ :=
  if warmup > 0 then
    match timed_event_loop wtrace with
    | none => none
    | some (.interrupted, _) => some (-1)
    | some (.error, _) => some (-1)
    | some (.completed, _) => measure_phase pulses_per_rev mtrace elapsed
  else
    measure_phase pulses_per_rev mtrace elapsed

/-! ### gpio.c : gpio_thread_fn, result recording -/

/-- Modelled from the spec: `measurement_all_done` is declared and called at
gpio.c:366 but its definition is not among the provided sources; per the
spec's `record(index, outcome)`, "if all N complete, wake the condition",
it holds exactly when all N completion flags are set. -/
def measurement_all_done (finished : List Bool) : Bool :=
  finished.all (fun b => b)

/-- A result table: measurement results and completion flags, as allocated
by `measurement_ctx_init` (measurement_common.c:24-25), indexed by thread
index. -/
structure ResultTable where
  results : List ℚ
  finished : List Bool
deriving Repr, DecidableEq

/-- The freshly calloc-ed table: results all 0.0, flags all clear
(measurement_common.c:24-25). -/
def initTable (n : ℕ) : ResultTable :=
  ⟨List.replicate n 0, List.replicate n false⟩

/-- Embedding of the record step of `gpio_thread_fn` (gpio.c:359-373,
multi-thread branch): under the results mutex, store the rpm at the
thread's index, set its finished flag, and signal the condition variable
exactly when `total_threads > 1` and all flags are now set.  (The
single-thread branch, gpio.c:377-381, stores and marks but never
signals.)  Returns the new table and whether the condition was signalled. -/
def gpio_thread_record (tbl : ResultTable) (idx : ℕ) (rpm : ℚ)
    (total_threads : ℕ) : ResultTable × Bool :=
  let tbl' : ResultTable := ⟨tbl.results.set idx rpm, tbl.finished.set idx true⟩
  (tbl', total_threads > 1 && measurement_all_done tbl'.finished)

/-- Embedding of the per-round body of `gpio_thread_fn`'s measurement loop
(gpio.c:347-354): if the measured rpm is negative (interrupted), the worker
breaks out without recording anything; otherwise it records the rpm.
Returns the record submitted to the table, if any. -/
def gpio_thread_round (rpm : ℚ) (idx : ℕ) : Option (ℕ × ℚ) :=
  if rpm < 0 then none else some (idx, rpm)

/-- Folding an arrival sequence of records into the table: each worker
calls the record step once, in whatever order the workers finish. -/
def recordAll (tbl : ResultTable) (arrivals : List (ℕ × ℚ))
    (total_threads : ℕ) : ResultTable :=
  arrivals.foldl (fun t p => (gpio_thread_record t p.1 p.2 total_threads).1) tbl

/-! ### watch.c : run_watch_mode round-await loop and emission -/

/-- One iteration's observations of the driver's inner wait loop
(watch.c:158-179): the stop flag read at the loop head and the finished
flags array scanned under the mutex. -/
structure AwaitObs where
  stop : Bool
  finished : List Bool
deriving Repr, DecidableEq

/-- Why the wait loop stopped looping. -/
inductive AwaitExit where
  | stopped
  | roundDone
deriving Repr, DecidableEq

/-- Embedding of the driver's inner wait loop (watch.c:158-179):
`while (!stop)` re-reads the stop flag each iteration; it scans the
finished flags and breaks when all are set; otherwise it re-enters
`pthread_cond_timedwait` with a 1-second ceiling and loops.  Returns the
exit reason together with the observation at which the loop released, or
`none` if the trace ends with the loop still waiting. -/
def await_round : List AwaitObs → Option (AwaitExit × AwaitObs)
  | [] => none
  | o :: rest =>
    if o.stop then some (.stopped, o)
    else if o.finished.all (fun b => b) then some (.roundDone, o)
    else await_round rest

/-- Embedding of the watch-mode ordered emission (watch.c:188-210): after a
round completes, the driver walks channel indices 0..ngpio-1 in order and
formats (gpio, result) for each — both the JSON-array branch and the
per-line branch iterate in index order.  The emitted list pairs each
requested channel with its table slot. -/
def watch_emit (gpios : List ℤ) (tbl : ResultTable) : List (ℤ × ℚ) :=
  gpios.zip tbl.results

/-- The driver's emission guard (watch.c:182): after the wait loop it
emits only when the stop flag is still clear — and the loop released
either on stop or with every finished flag set, so emission implies a
complete round. -/
def watch_round_emits (exitObs : AwaitExit × AwaitObs) : Bool :=
  !exitObs.2.stop

/-! ### measure.c : run_single_measurement emission -/

/-- Embedding of the single-shot ordered emission loop
(measure.c:58-71): channels are walked in requested order and a channel
whose result is negative (the interrupted sentinel) is skipped. -/
def single_shot_emit (gpios : List ℤ) (results : List ℚ) : List (ℤ × ℚ) :=
  (gpios.zip results).filter (fun p => !(p.2 < 0 : Bool))

/-- Embedding of the skip test in `format_json_array` (format.c:134-136),
used by the single-shot JSON path: entries with a negative result are
omitted. -/
def format_json_array_indices (results : List ℚ) : List ℕ :=
  (List.range results.length).filter
    (fun i => !(results.getD i 0 < 0 : Bool))

/-! ### measurement_common.c : measurement_create_threads -/

/-- The per-channel environment seen by `measurement_create_threads`
(measurement_common.c:69-99): whether the `thread_args_t` allocation
succeeded and whether `pthread_create` succeeded. -/
structure ChanEnv where
  allocOk : Bool
  createOk : Bool
deriving Repr, DecidableEq

/-- Embedding of `measurement_create_threads`
(measurement_common.c:66-102): -1 only when ctx or params is NULL;
otherwise each channel whose allocation fails is skipped (`continue`) and
each failed `pthread_create` leaves the thread handle zeroed — and the
function returns 0 regardless.  The returned list records, per channel,
whether a worker thread was actually started. -/
def measurement_create_threads (ctx_null params_null : Bool)
    (envs : List ChanEnv) : Int × List Bool :=
  if ctx_null || params_null then (-1, [])
  else (0, envs.map (fun e => e.allocOk && e.createOk))

/-! ### Concrete observations used in witnesses -/

/-- A timerfd-loop iteration that observes one gpio edge and reads it. -/
def edgeObs : LoopObs := ⟨false, false, false, false, true, true⟩

/-- A timerfd-loop iteration that observes timer expiry. -/
def timerDoneObs : LoopObs := ⟨false, false, false, true, false, false⟩

/-! ### Helper lemmas -/

/-- When the warmup phase is skipped (warmup ≤ 0) or completes,
`gpio_measure_rpm` reduces to its measurement phase. -/
lemma gpio_measure_rpm_of_warmup_ok (p warmup : ℤ) (wtrace mtrace : PhaseTrace)
    (e : ℚ)
    (hw : warmup ≤ 0 ∨ ∃ w, timed_event_loop wtrace = some (.completed, w)) :
    gpio_measure_rpm p warmup wtrace mtrace e = measure_phase p mtrace e := by
  rw [gpio_measure_rpm]
  by_cases h : warmup > 0
  · rcases hw with hw | ⟨w, hw⟩
    · exact absurd h (not_lt.mpr hw)
    · rw [if_pos h, hw]
  · rw [if_neg h]

/-! ### Claims -/

/-- C1: for every edge count c, pulses-per-revolution p ≥ 1 and measured
elapsed time e > 0, a measurement whose timed loop completes with c counted
edges yields RPM = (c / p) / e * 60 from `gpio_measure_rpm`
(gpio.c:294-312). -/
theorem C1_rpm_formula (p : ℤ) (c : ℕ) (e : ℚ) (warmup : ℤ)
    (wtrace mtrace : PhaseTrace)
    (hp : 1 ≤ p) (he : 0 < e)
    (hm : timed_event_loop mtrace = some (.completed, c))
    (hw : warmup ≤ 0 ∨ ∃ w, timed_event_loop wtrace = some (.completed, w)) :
    gpio_measure_rpm p warmup wtrace mtrace e =
      some (((c : ℚ) / (p : ℚ)) / e * 60) := by
  rw [gpio_measure_rpm_of_warmup_ok p warmup wtrace mtrace e hw]
  simp only [measure_phase, hm]
  rw [rpm_from, if_neg (not_le.mpr he)]

set_option maxRecDepth 4000 in
/-- C1 witness: 120 counted edges, 4 pulses per revolution, 2.0 s elapsed
give RPM 900. -/
theorem C1_rpm_formula_witness :
    gpio_measure_rpm 4 0 (PhaseTrace.timer [])
      (PhaseTrace.timer (List.replicate 120 edgeObs ++ [timerDoneObs])) 2 =
      some 900 := by
  have h := C1_rpm_formula 4 120 2 0 (PhaseTrace.timer [])
    (PhaseTrace.timer (List.replicate 120 edgeObs ++ [timerDoneObs]))
    (by norm_num) (by norm_num) (by decide) (Or.inl le_rfl)
  rw [h]
  norm_num

/-- C6: whenever the measured elapsed time is ≤ 0 and the measurement loop
completed with any edge count c, `gpio_measure_rpm` returns 0.0
(gpio.c:297), a degenerate value rather than an error outcome. -/
theorem C6_zero_elapsed (p : ℤ) (c : ℕ) (e : ℚ) (warmup : ℤ)
    (wtrace mtrace : PhaseTrace)
    (he : e ≤ 0)
    (hm : timed_event_loop mtrace = some (.completed, c))
    (hw : warmup ≤ 0 ∨ ∃ w, timed_event_loop wtrace = some (.completed, w)) :
    gpio_measure_rpm p warmup wtrace mtrace e = some 0 := by
  rw [gpio_measure_rpm_of_warmup_ok p warmup wtrace mtrace e hw]
  simp only [measure_phase, hm]
  rw [rpm_from, if_pos he]

/-- C6 witness: 5 counted edges with elapsed = 0 still give RPM 0.0. -/
theorem C6_zero_elapsed_witness :
    gpio_measure_rpm 4 0 (PhaseTrace.timer [])
      (PhaseTrace.timer (List.replicate 5 edgeObs ++ [timerDoneObs])) 0 =
      some 0 :=
  C6_zero_elapsed 4 5 0 0 (PhaseTrace.timer [])
    (PhaseTrace.timer (List.replicate 5 edgeObs ++ [timerDoneObs]))
    le_rfl (by decide) (Or.inl le_rfl)

/-- C8: the stats accumulator's first update sets min = max = v, later
updates fold min/max, every update adds to sum and bumps count, the average
is sum / count (0 when count = 0), and over samples [800, 900, 1000] the
result is min 800, max 1000, avg 900 (stats.c:19-36). -/
theorem C8_stats_accumulator (s : rpm_stats_t) (v : ℚ) :
    (s.count = 0 → (stats_update s v).min = v ∧ (stats_update s v).max = v) ∧
    (s.count ≠ 0 →
      (stats_update s v).min = min s.min v ∧
      (stats_update s v).max = max s.max v) ∧
    (stats_update s v).sum = s.sum + v ∧
    (stats_update s v).count = s.count + 1 ∧
    (s.count = 0 → stats_avg s = 0) ∧
    (s.count ≠ 0 → stats_avg s = s.sum / (s.count : ℚ)) ∧
    (stats_update (stats_update (stats_update stats_init 800) 900) 1000).min
      = 800 ∧
    (stats_update (stats_update (stats_update stats_init 800) 900) 1000).max
      = 1000 ∧
    stats_avg (stats_update (stats_update (stats_update stats_init 800) 900)
      1000) = 900 := by
  refine ⟨?_, ?_, ?_, ?_, ?_, ?_, ?_, ?_, ?_⟩
  · intro h; simp [stats_update, h]
  · intro h
    constructor
    · simp only [stats_update, if_neg h]
      rcases lt_or_ge v s.min with h' | h'
      · simp [if_pos h', min_eq_right h'.le]
      · simp [if_neg (not_lt.mpr h'), min_eq_left h']
    · simp only [stats_update, if_neg h]
      rcases lt_or_ge s.max v with h' | h'
      · simp [if_pos h', max_eq_right h'.le]
      · simp [if_neg (not_lt.mpr h'), max_eq_left h']
  · rcases eq_or_ne s.count 0 with h | h <;> simp [stats_update, h]
  · rcases eq_or_ne s.count 0 with h | h <;> simp [stats_update, h]
  · intro h; simp [stats_avg, h]
  · intro h; simp [stats_avg, h]
  · norm_num [stats_update, stats_init]
  · norm_num [stats_update, stats_init]
  · norm_num [stats_update, stats_init, stats_avg]

/-- C8 witness: the first sample 800 sets min = 800, and the second sample
900 folds the minimum. -/
theorem C8_stats_accumulator_witness :
    (stats_update stats_init 800).min = 800 ∧
    (stats_update (stats_update stats_init 800) 900).min
      = min (stats_update stats_init 800).min 900 :=
  ⟨((C8_stats_accumulator stats_init 800).1 rfl).1,
   ((C8_stats_accumulator (stats_update stats_init 800) 900).2.1
      (by decide)).1⟩

/-! ### Loop-trace predicates and lemmas for C5 / C7 -/

/-- A timerfd-loop iteration that neither exits nor breaks: stop is clear
and the iteration was an EINTR retry, a consumed edge, or an idle poll. -/
def timerfdContinues (o : LoopObs) : Prop :=
  o.stop = false ∧
    ((o.pollErr = true ∧ o.eintr = true) ∨
     (o.pollErr = false ∧ o.timerExpired = false ∧
       (o.gpioReady = false ∨ o.readOk = true)))

/-- The stop flag is observed set while the loop is still running: a prefix
of iterations merely continues, then an iteration reads stop = true. -/
def StopsDuring (obs : List LoopObs) : Prop :=
  ∃ pre o post, obs = pre ++ o :: post ∧
    (∀ x ∈ pre, timerfdContinues x) ∧ o.stop = true

lemma timerfdLoop_continue (o : LoopObs) (rest : List LoopObs) (c : ℕ)
    (h : timerfdContinues o) :
    timerfdLoop (o :: rest) c = timerfdLoop rest c ∨
    timerfdLoop (o :: rest) c = timerfdLoop rest (c + 1) := by
  obtain ⟨hs, h⟩ := h
  rcases h with ⟨hp, he⟩ | ⟨hp, ht, hg⟩
  · left; simp [timerfdLoop, hs, hp, he]
  · by_cases hgr : o.gpioReady = true
    · have hr : o.readOk = true := by
        rcases hg with hg | hr
        · rw [hgr] at hg; cases hg
        · exact hr
      right; simp [timerfdLoop, hs, hp, ht, hgr, hr]
    · left; simp [timerfdLoop, hs, hp, ht, hgr]

lemma timerfdLoop_run (pre l : List LoopObs) (c : ℕ)
    (hpre : ∀ x ∈ pre, timerfdContinues x) :
    ∃ c', timerfdLoop (pre ++ l) c = timerfdLoop l c' := by
  induction pre generalizing c with
  | nil => exact ⟨c, rfl⟩
  | cons x rest ih =>
    have hx := hpre x (List.mem_cons_self ..)
    have hrest : ∀ y ∈ rest, timerfdContinues y :=
      fun y hy => hpre y (List.mem_cons_of_mem _ hy)
    rw [List.cons_append]
    rcases timerfdLoop_continue x (rest ++ l) c hx with h | h
    · rw [h]; exact ih c hrest
    · rw [h]; exact ih (c + 1) hrest

lemma timerfdLoop_stops (pre : List LoopObs) (o : LoopObs)
    (post : List LoopObs)
    (hpre : ∀ x ∈ pre, timerfdContinues x) (ho : o.stop = true) (c : ℕ) :
    ∃ c', timerfdLoop (pre ++ o :: post) c = some (.interrupted, c') := by
  obtain ⟨c', hc⟩ := timerfdLoop_run pre (o :: post) c hpre
  exact ⟨c', by rw [hc]; simp [timerfdLoop, ho]⟩

/-- A fallback-loop iteration that neither exits nor breaks. -/
def fallbackContinues (o : FbObs) : Prop :=
  o.stop = false ∧ o.deadlineReached = false ∧
    (o.eventAvail = false ∨ o.readOk = true)

/-- Edges consumed across a run of continuing fallback iterations. -/
def fbCount (pre : List FbObs) : ℕ :=
  (pre.filter (fun x => x.eventAvail && x.readOk)).length

lemma fallbackLoop_run (pre l : List FbObs) (c : ℕ)
    (hpre : ∀ x ∈ pre, fallbackContinues x) :
    fallbackLoop (pre ++ l) c = fallbackLoop l (c + fbCount pre) := by
  induction pre generalizing c with
  | nil => simp [fbCount]
  | cons x rest ih =>
    obtain ⟨hs, hd, he⟩ := hpre x (List.mem_cons_self ..)
    have hrest : ∀ y ∈ rest, fallbackContinues y :=
      fun y hy => hpre y (List.mem_cons_of_mem _ hy)
    rw [List.cons_append]
    by_cases hev : x.eventAvail = true
    · have hr : x.readOk = true := by
        rcases he with he | hr
        · rw [hev] at he; cases he
        · exact hr
      have hstep : fallbackLoop (x :: (rest ++ l)) c =
          fallbackLoop (rest ++ l) (c + 1) := by
        simp [fallbackLoop, hs, hd, hev, hr]
      rw [hstep, ih (c + 1) hrest]
      have hcnt : fbCount (x :: rest) = fbCount rest + 1 := by
        simp [fbCount, List.filter_cons, hev, hr]
      rw [hcnt]
      congr 1
      omega
    · have hstep : fallbackLoop (x :: (rest ++ l)) c =
          fallbackLoop (rest ++ l) c := by
        simp [fallbackLoop, hs, hd, hev]
      rw [hstep, ih c hrest]
      have hcnt : fbCount (x :: rest) = fbCount rest := by
        simp [fbCount, List.filter_cons, hev]
      rw [hcnt]

/-- C7: with warmup > 0, if the stop flag becomes set while the warmup loop
is still running, `gpio_measure_rpm` returns the interrupted sentinel -1.0
(gpio.c:266-274) — for every measurement-phase trace and elapsed time, so
the measurement phase is skipped and no RPM is computed; the warmup loop is
invoked with a NULL count pointer (gpio.c:267), so its counted edges are
discarded by construction. -/
theorem C7_warmup_interrupted (p warmup : ℤ) (wobs : List LoopObs)
    (mtrace : PhaseTrace) (e : ℚ)
    (hwpos : 0 < warmup) (hs : StopsDuring wobs) :
    gpio_measure_rpm p warmup (.timer wobs) mtrace e = some (-1) := by
  obtain ⟨pre, o, post, rfl, hpre, ho⟩ := hs
  obtain ⟨c', hc⟩ := timerfdLoop_stops pre o post hpre ho 0
  rw [gpio_measure_rpm, if_pos hwpos]
  simp only [timed_event_loop, hc]

/-- C7 witness: stop observed at the first warmup iteration yields the
sentinel regardless of the measurement trace. -/
theorem C7_warmup_interrupted_witness :
    gpio_measure_rpm 4 1
      (.timer [⟨true, false, false, false, false, false⟩])
      (.timer [timerDoneObs]) 1 = some (-1) :=
  C7_warmup_interrupted 4 1 [⟨true, false, false, false, false, false⟩]
    (.timer [timerDoneObs]) 1 (by norm_num)
    ⟨[], ⟨true, false, false, false, false, false⟩, [], rfl,
      fun x hx => absurd hx (List.not_mem_nil x), rfl⟩

/-- C5 counterexample: a read failure in the timerfd loop (stop never set,
one poll with the gpio fd readable and the read failing) makes
`gpio_measure_rpm` return the interrupted sentinel -1.0, not the RPM
computed from the partial count (which would be rpm_from 0 4 2 = 0), so the
claim as stated is false on the code (gpio.c:119-125 breaks with `result`
still TIMED_LOOP_INTERRUPTED, and gpio.c:283-285 maps that to -1.0). -/
theorem C5_read_failure_counterexample :
    gpio_measure_rpm 4 0 (PhaseTrace.timer [])
      (PhaseTrace.timer [⟨false, false, false, false, true, false⟩]) 2 =
      some (-1) ∧
    rpm_from 0 4 2 = 0 ∧
    ((-1 : ℚ)) ≠ rpm_from 0 4 2 := by
  refine ⟨by decide, by norm_num [rpm_from], by norm_num [rpm_from]⟩

/-- C5 amended: a mid-phase read failure in the timerfd-based loop aborts
the measurement and `gpio_measure_rpm`'s measurement phase yields the
interrupted sentinel -1.0; only in the fallback loop (timerfd unavailable),
with the stop flag clear at the post-break re-check, does a read failure
complete the phase and yield the RPM computed from the partial edge count
and the measured elapsed time (gpio.c:74-81 versus gpio.c:119-125). -/
theorem C5_read_failure_amended (p : ℤ) (e : ℚ)
    (preT : List LoopObs) (oT : LoopObs) (postT : List LoopObs)
    (preF : List FbObs) (oF : FbObs) (postF : List FbObs)
    (hpreT : ∀ x ∈ preT, timerfdContinues x)
    (hoT : oT.stop = false ∧ oT.pollErr = false ∧ oT.timerExpired = false ∧
      oT.gpioReady = true ∧ oT.readOk = false)
    (hpreF : ∀ x ∈ preF, fallbackContinues x)
    (hoF : oF.stop = false ∧ oF.deadlineReached = false ∧
      oF.eventAvail = true ∧ oF.readOk = false ∧ oF.stopAfter = false) :
    measure_phase p (.timer (preT ++ oT :: postT)) e = some (-1) ∧
    measure_phase p (.fallback (preF ++ oF :: postF)) e =
      some (rpm_from (fbCount preF) p e) := by
  obtain ⟨hTs, hTp, hTt, hTg, hTr⟩ := hoT
  obtain ⟨hFs, hFd, hFe, hFr, hFa⟩ := hoF
  constructor
  · obtain ⟨c', hc⟩ := timerfdLoop_run preT (oT :: postT) 0 hpreT
    have hhead : timerfdLoop (oT :: postT) c' = some (.interrupted, c') := by
      simp [timerfdLoop, hTs, hTp, hTt, hTg, hTr]
    simp only [measure_phase, timed_event_loop, hc, hhead]
  · have hc := fallbackLoop_run preF (oF :: postF) 0 hpreF
    have hhead : fallbackLoop (oF :: postF) (0 + fbCount preF) =
        some (.completed, fbCount preF) := by
      simp [fallbackLoop, hFs, hFd, hFe, hFr, hFa]
    simp only [measure_phase, timed_event_loop, hc, hhead]

/-- C5 amended witness: one consumed edge then a read failure — the timer
loop yields the sentinel, the fallback loop yields the partial-count RPM
for count 1, p = 2, e = 1, namely 30. -/
theorem C5_read_failure_amended_witness :
    measure_phase 2
      (.timer [edgeObs, ⟨false, false, false, false, true, false⟩]) 1 =
      some (-1) ∧
    measure_phase 2
      (.fallback [⟨false, false, true, true, false⟩,
        ⟨false, false, true, false, false⟩]) 1 =
      some (rpm_from (fbCount [⟨false, false, true, true, false⟩]) 2 1) :=
  C5_read_failure_amended 2 1
    [edgeObs] ⟨false, false, false, false, true, false⟩ []
    [⟨false, false, true, true, false⟩] ⟨false, false, true, false, false⟩ []
    (by
      intro x hx
      rw [List.mem_singleton] at hx
      subst hx
      exact ⟨rfl, Or.inr ⟨rfl, rfl, Or.inr rfl⟩⟩)
    ⟨rfl, rfl, rfl, rfl, rfl⟩
    (by
      intro x hx
      rw [List.mem_singleton] at hx
      subst hx
      exact ⟨rfl, rfl, Or.inr rfl⟩)
    ⟨rfl, rfl, rfl, rfl, rfl⟩

/-! ### Index-keyed write folds (the shared result arrays) -/

/-- Folding a list of (index, value) writes into an array, as the workers'
`a->results[a->thread_index] = rpm` stores land in arrival order. -/
def setFold {α : Type} (writes : List (ℕ × α)) (r : List α) : List α :=
  writes.foldl (fun acc q => acc.set q.1 q.2) r

lemma setFold_cons {α : Type} (x : ℕ × α) (rest : List (ℕ × α))
    (r : List α) : setFold (x :: rest) r = setFold rest (r.set x.1 x.2) :=
  rfl

lemma setFold_length {α : Type} (writes : List (ℕ × α)) (r : List α) :
    (setFold writes r).length = r.length := by
  induction writes generalizing r with
  | nil => rfl
  | cons x rest ih => rw [setFold_cons, ih, List.length_set]

lemma setFold_not_mem {α : Type} (writes : List (ℕ × α)) (r : List α)
    (j : ℕ) (h : ∀ q ∈ writes, q.1 ≠ j) :
    (setFold writes r)[j]? = r[j]? := by
  induction writes generalizing r with
  | nil => rfl
  | cons x rest ih =>
    rw [setFold_cons, ih _ (fun q hq => h q (List.mem_cons_of_mem _ hq))]
    exact List.getElem?_set_ne (h x (List.mem_cons_self ..))

lemma setFold_nodup_mem {α : Type} (out : ℕ → α) (l : List ℕ) (r : List α)
    (j : ℕ) (hnd : l.Nodup) (hj : j ∈ l) (hlt : j < r.length) :
    (setFold (l.map (fun i => (i, out i))) r)[j]? = some (out j) := by
  induction l generalizing r with
  | nil => cases hj
  | cons i rest ih =>
    rw [List.map_cons, setFold_cons]
    rcases List.mem_cons.mp hj with rfl | hj'
    · have hni : j ∉ rest := (List.nodup_cons.mp hnd).1
      rw [setFold_not_mem _ _ _ (fun q hq => ?_)]
      · exact List.getElem?_set_self hlt
      · obtain ⟨i', hi', rfl⟩ := List.mem_map.mp hq
        intro hc
        exact hni (hc ▸ hi')
    · exact ih (r.set i (out i)) (List.nodup_cons.mp hnd).2 hj'
        (by rw [List.length_set]; exact hlt)

lemma recordAll_cons (tbl : ResultTable) (x : ℕ × ℚ) (rest : List (ℕ × ℚ))
    (n : ℕ) :
    recordAll tbl (x :: rest) n =
      recordAll ⟨tbl.results.set x.1 x.2, tbl.finished.set x.1 true⟩ rest n :=
  rfl

lemma recordAll_results (tbl : ResultTable) (l : List (ℕ × ℚ)) (n : ℕ) :
    (recordAll tbl l n).results = setFold l tbl.results := by
  induction l generalizing tbl with
  | nil => rfl
  | cons x rest ih => rw [recordAll_cons, setFold_cons, ih]

lemma recordAll_finished (tbl : ResultTable) (l : List (ℕ × ℚ)) (n : ℕ) :
    (recordAll tbl l n).finished =
      setFold (l.map (fun q => (q.1, true))) tbl.finished := by
  induction l generalizing tbl with
  | nil => rfl
  | cons x rest ih => rw [recordAll_cons, List.map_cons, setFold_cons, ih]

/-! ### The driver's release condition -/

/-- The inner wait loop of watch.c:158-179 releases only at an observation
where stop is set (through the while condition) or where every finished
flag is set (through the all-done break). -/
lemma await_round_releases (trace : List AwaitObs) (ex : AwaitExit)
    (o : AwaitObs) (hrel : await_round trace = some (ex, o)) :
    (ex = .stopped ∧ o.stop = true) ∨
    (ex = .roundDone ∧ o.stop = false ∧
      o.finished.all (fun b => b) = true) := by
  induction trace with
  | nil => cases hrel
  | cons x rest ih =>
    rw [await_round] at hrel
    split_ifs at hrel with hs hall
    · simp only [Option.some.injEq, Prod.mk.injEq] at hrel
      obtain ⟨rfl, rfl⟩ := hrel
      exact Or.inl ⟨rfl, hs⟩
    · simp only [Option.some.injEq, Prod.mk.injEq] at hrel
      obtain ⟨rfl, rfl⟩ := hrel
      exact Or.inr ⟨rfl, Bool.not_eq_true _ ▸ hs, hall⟩
    · exact ih hrel

/-- C2: for every channel count N ∈ [1,10] and every trace of wait-loop
observations over N flags, the round-await loop of `run_watch_mode`
(watch.c:155-179) releases only at an observation where the stop flag is
set or where all N finished flags are set — never on a partial set of flags
without a stop; each iteration re-reads the stop flag (the model's fresh
observation per 1-second timed wait). -/
theorem C2_barrier_release (N : ℕ) (trace : List AwaitObs) (ex : AwaitExit)
    (o : AwaitObs)
    (hN1 : 1 ≤ N) (hN10 : N ≤ 10)
    (hlen : ∀ obs ∈ trace, obs.finished.length = N)
    (hrel : await_round trace = some (ex, o)) :
    o.finished.length = N ∧
    (o.stop = true ∨ ∀ b ∈ o.finished, b = true) ∧
    (ex = .roundDone → o.stop = false ∧ ∀ b ∈ o.finished, b = true) ∧
    (ex = .stopped → o.stop = true) := by
  have hmem : o ∈ trace := by
    clear hlen
    induction trace with
    | nil => cases hrel
    | cons x rest ih =>
      rw [await_round] at hrel
      split_ifs at hrel with hs hall
      · simp only [Option.some.injEq, Prod.mk.injEq] at hrel
        exact hrel.2 ▸ List.mem_cons_self ..
      · simp only [Option.some.injEq, Prod.mk.injEq] at hrel
        exact hrel.2 ▸ List.mem_cons_self ..
      · exact List.mem_cons_of_mem _ (ih hrel)
  refine ⟨hlen o hmem, ?_, ?_, ?_⟩
  · rcases await_round_releases trace ex o hrel with ⟨_, hs⟩ | ⟨_, _, hall⟩
    · exact Or.inl hs
    · exact Or.inr (fun b hb => List.all_eq_true.mp hall b hb)
  · intro hex
    rcases await_round_releases trace ex o hrel with ⟨hex', _⟩ | ⟨_, hs, hall⟩
    · rw [hex'] at hex; cases hex
    · exact ⟨hs, fun b hb => List.all_eq_true.mp hall b hb⟩
  · intro hex
    rcases await_round_releases trace ex o hrel with ⟨_, hs⟩ | ⟨hex', _, _⟩
    · exact hs
    · rw [hex'] at hex; cases hex

/-- C2 witness: with N = 2, a trace whose first observation has a partial
flag set is not released; the loop releases at the second observation, with
both flags set. -/
theorem C2_barrier_release_witness :
    (AwaitObs.mk false [true, true]).finished.length = 2 ∧
    ∀ b ∈ (AwaitObs.mk false [true, true]).finished, b = true := by
  have h := C2_barrier_release 2
    [⟨false, [false, true]⟩, ⟨false, [true, true]⟩]
    .roundDone ⟨false, [true, true]⟩
    (by norm_num) (by norm_num) (by decide) (by decide)
  exact ⟨h.1, (h.2.2.1 rfl).2⟩

/-- Final results array after all of a round's records land, in any arrival
order that is a permutation of the channel indices. -/
lemma recordAll_perm_results (outcomes : List ℚ) (arrival : List ℕ) (n : ℕ)
    (hn : outcomes.length = n)
    (hperm : arrival.Perm (List.range n)) :
    (recordAll (initTable n)
      (arrival.map (fun i => (i, outcomes.getD i 0))) n).results =
      outcomes := by
  have hnd : arrival.Nodup := hperm.nodup_iff.mpr (List.nodup_range n)
  rw [recordAll_results]
  apply List.ext_getElem?
  intro j
  by_cases hj : j < n
  · have hjm : j ∈ arrival := hperm.mem_iff.mpr (List.mem_range.mpr hj)
    have hjl : j < (initTable n).results.length := by
      simp [initTable, hj]
    rw [setFold_nodup_mem (fun i => outcomes.getD i 0) arrival _ j hnd hjm hjl]
    have hj' : j < outcomes.length := hn ▸ hj
    rw [List.getElem?_eq_getElem hj', List.getD_eq_getElem?_getD,
      List.getElem?_eq_getElem hj']
    rfl
  · rw [List.getElem?_eq_none, List.getElem?_eq_none]
    · omega
    · have : (setFold (arrival.map (fun i => (i, outcomes.getD i 0)))
          (initTable n).results).length = n := by
        rw [setFold_length]; simp [initTable]
      omega

/-- C3: for every requested channel list, a full round's emission pairs
channels with results in the requested order — the driver walks indices
0..N-1 (watch.c:188-210) and the index-keyed result table makes the
emission independent of the workers' completion order; e.g. channels
[18, 17, 19] are always listed 18, then 17, then 19. -/
theorem C3_output_order (gpios : List ℤ) (outcomes : List ℚ)
    (arrival : List ℕ)
    (hlen : outcomes.length = gpios.length)
    (hperm : arrival.Perm (List.range gpios.length)) :
    watch_emit gpios
      (recordAll (initTable gpios.length)
        (arrival.map (fun i => (i, outcomes.getD i 0))) gpios.length) =
      gpios.zip outcomes ∧
    (watch_emit gpios
      (recordAll (initTable gpios.length)
        (arrival.map (fun i => (i, outcomes.getD i 0)))
        gpios.length)).map Prod.fst = gpios := by
  have hres := recordAll_perm_results outcomes arrival gpios.length hlen hperm
  constructor
  · rw [watch_emit, hres]
  · rw [watch_emit, hres]
    exact List.map_fst_zip gpios outcomes (le_of_eq hlen.symm)

/-- C3 witness: requested channels [18, 17, 19]; the workers finish in
arrival order 19, 18, 17, yet the emission lists 18, then 17, then 19. -/
theorem C3_output_order_witness :
    (watch_emit [18, 17, 19]
      (recordAll (initTable 3)
        ([2, 0, 1].map (fun i => (i, [800, 900, 1000].getD i 0))) 3)).map
      Prod.fst = [18, 17, 19] :=
  (C3_output_order [18, 17, 19] [800, 900, 1000] [2, 0, 1]
    (by decide) (by decide)).2

/-! ### C4: interrupted outcomes never reach the output -/

/-- One continuous-mode round's effect on the reset table: the driver has
cleared the finished flags (watch.c:214), `res0` is whatever the results
array held, and each worker submits a record only when its measurement was
not interrupted (gpio.c:350-363 breaks before recording when rpm < 0). -/
def watch_round_table (res0 outcomes : List ℚ) : ResultTable :=
  recordAll ⟨res0, List.replicate outcomes.length false⟩
    ((List.range outcomes.length).filterMap
      (fun j => gpio_thread_round (outcomes.getD j 0) j))
    outcomes.length

/-- C4: an interrupted channel's result is never part of the formatted
output of its round.  Single shot: the emission loop (measure.c:58-71) and
the JSON-array path (format.c:134-136) skip negative results, so nothing
emitted is negative.  Continuous: the worker never records an interrupted
outcome (gpio.c:350-354), so with any channel interrupted the round's
finished flags cannot all be set, and a driver release observing those
flags can only be a stop — whose emission guard (watch.c:182) suppresses
the round. -/
theorem C4_interrupted_suppressed (gpios : List ℤ) (results : List ℚ)
    (res0 outcomes : List ℚ) (i : ℕ) (trace : List AwaitObs)
    (ex : AwaitExit) (o : AwaitObs)
    (hi : i < outcomes.length) (hneg : outcomes.getD i 0 < 0)
    (hrel : await_round trace = some (ex, o))
    (hobs : o.finished = (watch_round_table res0 outcomes).finished) :
    (∀ q ∈ single_shot_emit gpios results, ¬ q.2 < 0) ∧
    (∀ j ∈ format_json_array_indices results, ¬ results.getD j 0 < 0) ∧
    measurement_all_done (watch_round_table res0 outcomes).finished
      = false ∧
    watch_round_emits (ex, o) = false := by
  have hflag : (watch_round_table res0 outcomes).finished[i]? = some false := by
    rw [watch_round_table, recordAll_finished]
    rw [setFold_not_mem]
    · rw [List.getElem?_replicate, if_pos hi]
    · intro q hq
      obtain ⟨q', hq', hq2⟩ := List.mem_map.mp hq
      obtain ⟨j, _, hj2⟩ := List.mem_filterMap.mp hq'
      rw [gpio_thread_round] at hj2
      split_ifs at hj2 with hneg'
      cases hj2
      subst hq2
      intro hc
      have hji : j = i := hc
      rw [hji] at hneg'
      exact hneg' hneg
  have hdone : measurement_all_done
      (watch_round_table res0 outcomes).finished = false := by
    rw [Bool.eq_false_iff]
    intro hall
    have hmem : false ∈ (watch_round_table res0 outcomes).finished := by
      have := List.getElem?_eq_some_iff.mp hflag
      obtain ⟨hlt, hget⟩ := this
      exact hget ▸ List.getElem_mem hlt
    have := List.all_eq_true.mp hall false hmem
    cases this
  refine ⟨?_, ?_, hdone, ?_⟩
  · intro q hq
    have := List.of_mem_filter hq
    simpa using this
  · intro j hj
    have := List.of_mem_filter hj
    simpa using this
  · rcases await_round_releases trace ex o hrel with ⟨_, hs⟩ | ⟨_, _, hall⟩
    · rw [watch_round_emits, hs]; rfl
    · exfalso
      rw [hobs] at hall
      rw [measurement_all_done, hall] at hdone
      cases hdone

/-- C4 witness: channels [18, 17] with channel 18 interrupted (-1) and
channel 17 at 700 — the single-shot emission omits the interrupted entry,
the round's flags are not all set, and the driver's only release is a stop
whose emission guard is false. -/
theorem C4_interrupted_suppressed_witness :
    (∀ q ∈ single_shot_emit [18, 17] [-1, 700], ¬ q.2 < 0) ∧
    measurement_all_done (watch_round_table [0, 0] [-1, 700]).finished
      = false ∧
    watch_round_emits (.stopped, ⟨true, [false, true]⟩) = false := by
  have h := C4_interrupted_suppressed [18, 17] [-1, 700] [0, 0] [-1, 700] 0
    [⟨true, [false, true]⟩] .stopped ⟨true, [false, true]⟩
    (by norm_num) (by norm_num) (by decide) (by decide)
  exact ⟨h.1, h.2.2.1, h.2.2.2⟩

/-- C9 counterexample: with a single channel (N = 1), the record operation
stores the outcome and marks the only index complete — all 1 indices are
then complete — yet no condition signal is issued, because gpio.c:357 gates
the signalling branch on `total_threads > 1` and the single-thread branch
(gpio.c:377-381) never signals. -/
theorem C9_record_counterexample :
    (gpio_thread_record (initTable 1) 0 500 1).2 = false ∧
    measurement_all_done (gpio_thread_record (initTable 1) 0 500 1).1.finished
      = true ∧
    (gpio_thread_record (initTable 1) 0 500 1).1.results = [500] := by
  refine ⟨rfl, rfl, ?_⟩
  show ((List.replicate 1 (0 : ℚ)).set 0 500) = [500]
  rfl

/-- C9 amended: for every channel count N and index, the record operation
stores the outcome at the index and marks it complete under the
result-table mutex; when N > 1 it wakes the driver's condition variable iff
all N indices are then complete, while with N = 1 it stores and marks but
never signals — the driver instead notices completion through its 1-second
timed re-poll (gpio.c:356-393). -/
theorem C9_record (tbl : ResultTable) (idx N : ℕ) (rpm : ℚ)
    (hres : idx < tbl.results.length) (hfin : idx < tbl.finished.length) :
    (gpio_thread_record tbl idx rpm N).1.results[idx]? = some rpm ∧
    (gpio_thread_record tbl idx rpm N).1.finished[idx]? = some true ∧
    ((gpio_thread_record tbl idx rpm N).2 = true ↔
      1 < N ∧ measurement_all_done
        (gpio_thread_record tbl idx rpm N).1.finished = true) := by
  refine ⟨List.getElem?_set_self hres, List.getElem?_set_self hfin, ?_⟩
  show (decide (N > 1) && _) = true ↔ _
  rw [Bool.and_eq_true, decide_eq_true_iff]
  rfl

/-- C9 amended witness: N = 2, recording 500 at index 0 of a fresh table
stores it, marks index 0, and does not signal (index 1 incomplete). -/
theorem C9_record_witness :
    (gpio_thread_record (initTable 2) 0 500 2).1.results[0]? = some 500 ∧
    (gpio_thread_record (initTable 2) 0 500 2).1.finished[0]? = some true :=
  ⟨(C9_record (initTable 2) 0 2 500 (by decide) (by decide)).1,
   (C9_record (initTable 2) 0 2 500 (by decide) (by decide)).2.1⟩

/-- C10: for a non-null context and parameter set,
`measurement_create_threads` returns 0 whatever the per-channel allocation
and thread-creation outcomes are; a failed channel's thread handle stays
zeroed and the channel is skipped, and even with every channel failing the
return is still 0 with no worker started
(measurement_common.c:66-102). -/
theorem C10_create_threads_ok (envs : List ChanEnv) (n i : ℕ)
    (hi : i < envs.length) :
    (measurement_create_threads false false envs).1 = 0 ∧
    (envs[i].allocOk = false ∨ envs[i].createOk = false →
      (measurement_create_threads false false envs).2[i]? = some false) ∧
    (measurement_create_threads false false
      (List.replicate n ⟨false, false⟩)).2 = List.replicate n false := by
  refine ⟨rfl, ?_, ?_⟩
  · intro h
    show (envs.map (fun e => e.allocOk && e.createOk))[i]? = some false
    rw [List.getElem?_map, List.getElem?_eq_getElem hi]
    rcases h with h | h <;> simp [h]
  · show (List.replicate n (⟨false, false⟩ : ChanEnv)).map
        (fun e => e.allocOk && e.createOk) = List.replicate n false
    rw [List.map_replicate]
    rfl

/-- C10 witness: two channels, the first failing allocation — return is 0
and the first handle is zeroed; with both channels failing everything, the
return is still 0 and no thread exists. -/
theorem C10_create_threads_ok_witness :
    (measurement_create_threads false false
      [⟨false, true⟩, ⟨true, true⟩]).1 = 0 ∧
    (measurement_create_threads false false
      [⟨false, true⟩, ⟨true, true⟩]).2[0]? = some false ∧
    (measurement_create_threads false false
      (List.replicate 2 ⟨false, false⟩)).2 = List.replicate 2 false := by
  have h := C10_create_threads_ok [⟨false, true⟩, ⟨true, true⟩] 2 0
    (by decide)
  exact ⟨h.1, h.2.1 (Or.inl rfl), h.2.2⟩

end GpioFanRpm
